import Mathlib

/-!
Verification of the control-interface client protocol core of the
eclipse-ankaios example and tooling code.

The embedding covers:
* the length-delimited frame codec of
  `examples/python_control_interface/src/main.py`
  (`write_to_control_interface`, `read_protobuf_data`, and the semantics of
  the protobuf helpers `_VarintBytes` / `_DecodeVarint` they call),
* the connection state machine and response dispatch of `handle_response`
  in the same file, together with the `__main__` handshake and send loop,
* the event-mirror loop of `tools/tutorial_event/main.py`
  (`workload_from_field`, the `workloads_db` dictionary, and the
  added/updated/removed field handling of the module-level event loop).

Byte streams are modelled as `List Nat` (each element one byte), Python
exceptions as `Except` errors, and the module-level booleans `CONNECTED` /
`CONNECTION_CLOSED` as an explicit state record.
-/

namespace Ankaios

/-- Errors that can escape the frame-reading path: `indexError` models the
Python `IndexError` raised by `_DecodeVarint` when it indexes past the end of
the varint buffer, `tooManyBytes` models the `_DecodeError('Too many bytes
when decoding varint.')` raised when the accumulated shift reaches 64. -/
inductive ReadError where
  | indexError
  | tooManyBytes
deriving DecidableEq, Repr

/-- Semantics of protobuf's `_VarintBytes`, used by
`write_to_control_interface` to encode the message length: base-128 varint,
least-significant 7-bit group first, continuation bit `0x80` on every byte
except the last. -/
def varintBytes (n : Nat) : List Nat :=
  if n < 128 then [n]
  else (128 + n % 128) :: varintBytes (n / 128)
termination_by n
decreasing_by exact Nat.div_lt_self (by omega) (by omega)

/-- Core loop of protobuf's `_DecodeVarint` on a byte buffer starting at
position 0.  The fuel counts the continuation bytes still allowed before the
shift reaches 64 (the Python decoder raises after ten bytes); reading past
the end of the buffer is an `IndexError`. -/
def decodeVarintCore : Nat → List Nat → Except ReadError Nat
  | _, [] => .error .indexError
  | fuel, b :: rest =>
    if b &&& 128 == 0 then .ok (b &&& 127)
    else if fuel = 0 then .error .tooManyBytes
    else
      match decodeVarintCore (fuel - 1) rest with
      | .error e => .error e
      | .ok v => .ok ((b &&& 127) + 128 * v)

/-- Semantics of protobuf's `_DecodeVarint buffer 0` as called by
`read_protobuf_data`: decode the base-128 varint at the front of the buffer,
mask the result to 64 bits, raising on an empty or all-continuation buffer.
The returned position is not used by the caller and is omitted. -/
def decodeVarint (buffer : List Nat) : Except ReadError Nat :=
  match decodeVarintCore 9 buffer with
  | .error e => .error e
  | .ok v => .ok (v &&& (2 ^ 64 - 1))

/-- The first loop of `read_protobuf_data`: consume the stream byte by byte
into `varint_buffer`, stopping after a byte whose most significant bit is 0,
or silently at end of stream.  Returns the accumulated buffer and the
remaining stream. -/
def readVarintBuffer : List Nat → List Nat × List Nat
  | [] => ([], [])
  | b :: rest =>
    if b &&& 128 == 0 then ([b], rest)
    else
      let r := readVarintBuffer rest
      (b :: r.1, r.2)

/-- The second loop of `read_protobuf_data`: read exactly `n` bytes from the
stream, stopping early (without error) if the stream ends first.  Returns the
accumulated message buffer and the remaining stream. -/
def readNBytes : Nat → List Nat → List Nat × List Nat
  | 0, s => ([], s)
  | _ + 1, [] => ([], [])
  | n + 1, b :: rest =>
    let r := readNBytes n rest
    (b :: r.1, r.2)

/-- `read_protobuf_data` of `examples/python_control_interface/src/main.py`:
accumulate the varint length prefix, decode it with `_DecodeVarint`, then
read that many payload bytes (fewer if the stream ends early).  A failure of
`_DecodeVarint` is an uncaught Python exception, modelled as the `Except`
error. -/
def read_protobuf_data (stream : List Nat) :
    Except ReadError (List Nat × List Nat) :=
  let v := readVarintBuffer stream
  match decodeVarint v.1 with
  | .error e => .error e
  | .ok msgLen =>
    let r := readNBytes msgLen v.2
    .ok (r.1, r.2)

/-- `write_to_control_interface` of the same file, restricted to the bytes it
writes for one message: the varint of the serialized length followed by the
serialized payload.  `message.ByteSize()` equals the length of
`message.SerializeToString()`, so the payload is taken directly as bytes. -/
def write_to_control_interface (payload : List Nat) : List Nat :=
  varintBytes payload.length ++ payload

/-! ### Basic facts about the varint encoding -/

theorem varintBytes_of_lt {n : Nat} (h : n < 128) : varintBytes n = [n] := by
  rw [varintBytes]
  simp [h]

theorem varintBytes_of_ge {n : Nat} (h : 128 ≤ n) :
    varintBytes n = (128 + n % 128) :: varintBytes (n / 128) := by
  rw [varintBytes]
  simp [Nat.not_lt.2 h]

set_option maxRecDepth 4096 in
theorem and128_eq : ∀ b < 256, b &&& 128 = if b < 128 then 0 else 128 := by
  decide

set_option maxRecDepth 4096 in
theorem and127_eq : ∀ b < 256, b &&& 127 = b % 128 := by decide

theorem and128_of_lt {b : Nat} (h : b < 128) : b &&& 128 = 0 := by
  have := and128_eq b (by omega)
  simpa [h] using this

theorem and128_of_cont {r : Nat} (h : r < 128) : (128 + r) &&& 128 = 128 := by
  have := and128_eq (128 + r) (by omega)
  simpa [Nat.not_lt.2 (Nat.le_add_right 128 r)] using this

theorem and127_of_lt {b : Nat} (h : b < 256) : b &&& 127 = b % 128 :=
  and127_eq b h

/-- Decoding the varint core on an encoded value recovers the value, given
enough fuel for the byte length of the encoding. -/
theorem decodeVarintCore_varintBytes :
    ∀ n fuel, (varintBytes n).length ≤ fuel + 1 →
      decodeVarintCore fuel (varintBytes n) = .ok n := by
  intro n
  induction n using Nat.strong_induction_on with
  | _ n ih =>
    intro fuel hlen
    by_cases h : n < 128
    · rw [varintBytes_of_lt h]
      have h0 : n &&& 128 = 0 := and128_of_lt h
      have h1 : n &&& 127 = n % 128 := and127_of_lt (by omega)
      simp [decodeVarintCore, h0, h1, Nat.mod_eq_of_lt h]
    · have hge : 128 ≤ n := by omega
      rw [varintBytes_of_ge hge] at hlen ⊢
      have hmod : n % 128 < 128 := Nat.mod_lt _ (by omega)
      have hcont : (128 + n % 128) &&& 128 = 128 := and128_of_cont hmod
      have h127 : (128 + n % 128) &&& 127 = n % 128 := by
        have := and127_of_lt (b := 128 + n % 128) (by omega)
        simpa [Nat.add_mod_left, Nat.mod_eq_of_lt hmod] using this
      have hne : varintBytes (n / 128) ≠ [] := by
        by_cases h2 : n / 128 < 128
        · rw [varintBytes_of_lt h2]; simp
        · rw [varintBytes_of_ge (by omega)]; simp
      have hfuel : 1 ≤ fuel := by
        rcases List.exists_cons_of_ne_nil hne with ⟨a, l, hl⟩
        simp [hl, List.length_cons] at hlen
        omega
      have hrec : decodeVarintCore (fuel - 1) (varintBytes (n / 128)) =
          .ok (n / 128) := by
        apply ih (n / 128) (Nat.div_lt_self (by omega) (by omega))
        have : (varintBytes (n / 128)).length + 1 ≤ fuel + 1 := by
          simpa [List.length_cons] using hlen
        omega
      have hfne : ¬ fuel = 0 := by omega
      simp [decodeVarintCore, hcont, hfne, hrec, h127, Nat.mod_add_div]

/-- The varint encoding of `n` has at most `k + 1` bytes when `n < 2^(7k+7)`. -/
theorem varintBytes_length_le :
    ∀ k n, n < 2 ^ (7 * k + 7) → (varintBytes n).length ≤ k + 1 := by
  intro k
  induction k with
  | zero =>
    intro n hn
    have : n < 128 := by simpa using hn
    rw [varintBytes_of_lt this]
    simp
  | succ k ih =>
    intro n hn
    by_cases h : n < 128
    · rw [varintBytes_of_lt h]; simp
    · rw [varintBytes_of_ge (by omega)]
      have hdiv : n / 128 < 2 ^ (7 * k + 7) := by
        apply Nat.div_lt_of_lt_mul
        have : 2 ^ (7 * (k + 1) + 7) = 2 ^ (7 * k + 7) * 128 := by ring
        omega
      have := ih (n / 128) hdiv
      simp [List.length_cons]
      omega

/-- `_DecodeVarint` inverts `_VarintBytes` for any length below `2^64`. -/
theorem decodeVarint_varintBytes {n : Nat} (h : n < 2 ^ 64) :
    decodeVarint (varintBytes n) = .ok n := by
  have hlen : (varintBytes n).length ≤ 10 := by
    apply varintBytes_length_le 9 n
    calc n < 2 ^ 64 := h
    _ ≤ 2 ^ (7 * 9 + 7) := by norm_num
  rw [decodeVarint, decodeVarintCore_varintBytes n 9 (by omega)]
  simp [Nat.and_pow_two_sub_one_of_lt_two_pow h]

/-- The varint-buffer loop consumes exactly the encoded varint and leaves the
rest of the stream untouched. -/
theorem readVarintBuffer_varintBytes :
    ∀ n s, readVarintBuffer (varintBytes n ++ s) = (varintBytes n, s) := by
  intro n
  induction n using Nat.strong_induction_on with
  | _ n ih =>
    intro s
    by_cases h : n < 128
    · rw [varintBytes_of_lt h]
      simp [readVarintBuffer, and128_of_lt h]
    · rw [varintBytes_of_ge (by omega)]
      have hmod : n % 128 < 128 := Nat.mod_lt _ (by omega)
      have hcont : (128 + n % 128) &&& 128 = 128 := and128_of_cont hmod
      simp [readVarintBuffer, hcont,
        ih (n / 128) (Nat.div_lt_self (by omega) (by omega)) s]

theorem readNBytes_exact :
    ∀ (p rest : List Nat), readNBytes p.length (p ++ rest) = (p, rest) := by
  intro p
  induction p with
  | nil => intro rest; simp [readNBytes]
  | cons b t ih => intro rest; simp [readNBytes, ih rest]

theorem readNBytes_short :
    ∀ (p : List Nat) (n : Nat), p.length < n → readNBytes n p = (p, []) := by
  intro p
  induction p with
  | nil =>
    intro n hn
    match n, hn with
    | m + 1, _ => simp [readNBytes]
  | cons b t ih =>
    intro n hn
    match n, hn with
    | m + 1, hn =>
      have : t.length < m := by simp [List.length_cons] at hn; omega
      simp [readNBytes, ih m this]

/-! ### Error paths of the varint decoder -/

theorem readVarintBuffer_all_cont :
    ∀ s : List Nat, (∀ b ∈ s, b &&& 128 ≠ 0) →
      readVarintBuffer s = (s, []) := by
  intro s
  induction s with
  | nil => intro _; simp [readVarintBuffer]
  | cons b t ih =>
    intro h
    have hb : b &&& 128 ≠ 0 := h b (by simp)
    have ht := ih (fun x hx => h x (by simp [hx]))
    simp [readVarintBuffer, hb, ht]

theorem decodeVarintCore_all_cont :
    ∀ (s : List Nat) (fuel : Nat), (∀ b ∈ s, b &&& 128 ≠ 0) →
      ∃ e, decodeVarintCore fuel s = .error e := by
  intro s
  induction s with
  | nil => intro fuel _; exact ⟨.indexError, rfl⟩
  | cons b t ih =>
    intro fuel h
    have hb : b &&& 128 ≠ 0 := h b (by simp)
    by_cases hf : fuel = 0
    · exact ⟨.tooManyBytes, by simp [decodeVarintCore, hb, hf]⟩
    · rcases ih (fuel - 1) (fun x hx => h x (by simp [hx])) with ⟨e, he⟩
      exact ⟨e, by simp [decodeVarintCore, hb, hf, he]⟩

theorem decodeVarint_all_cont (s : List Nat) (h : ∀ b ∈ s, b &&& 128 ≠ 0) :
    ∃ e, decodeVarint s = .error e := by
  rcases decodeVarintCore_all_cont s 9 h with ⟨e, he⟩
  exact ⟨e, by simp [decodeVarint, he]⟩

theorem decodeVarint_nil : decodeVarint [] = .error .indexError := rfl

/-! ### Frame codec theorems -/

/-- C1: For every payload (in particular for every payload whose size crosses
a varint byte boundary such as 127, 128, 16383 or 16384 bytes), decoding the
frame produced by encoding — `write_to_control_interface` writes
`varint(length)` followed by the payload, `read_protobuf_data` reads varint
bytes until the continuation bit clears and then exactly `length` payload
bytes — returns the payload bytes of the original envelope and leaves the
rest of the stream untouched. -/
theorem decode_encode_roundtrip (p rest : List Nat)
    (hlen : p.length < 2 ^ 64) :
    read_protobuf_data (write_to_control_interface p ++ rest) =
      .ok (p, rest) := by
  rw [write_to_control_interface, List.append_assoc]
  rw [read_protobuf_data]
  simp only [readVarintBuffer_varintBytes p.length (p ++ rest)]
  rw [decodeVarint_varintBytes hlen]
  simp [readNBytes_exact p rest]

set_option maxRecDepth 8192 in
/-- Witness for C1 at the varint byte boundary 128: a 128-byte payload needs a
two-byte varint length prefix and still round-trips. -/
theorem decode_encode_roundtrip_witness :
    (List.replicate 128 65).length < 2 ^ 64 ∧
      read_protobuf_data
        (write_to_control_interface (List.replicate 128 65) ++ []) =
        .ok (List.replicate 128 65, []) :=
  ⟨by decide, decode_encode_roundtrip (List.replicate 128 65) [] (by decide)⟩

/-- C3 counterexample: the stream `[2, 65]` declares a two-byte payload but
ends after one byte, yet `read_protobuf_data` returns the truncated payload
`[65]` as an ordinary value instead of failing with a framing error. -/
theorem truncated_payload_returns_value :
    read_protobuf_data [2, 65] = .ok ([65], []) := by
  have h2 : (2 : Nat) &&& 128 = 0 := by decide
  have h127 : (2 : Nat) &&& 127 = 2 := by decide
  have hmask : (2 : Nat) &&& (2 ^ 64 - 1) = 2 :=
    Nat.and_pow_two_sub_one_of_lt_two_pow (by norm_num)
  simp [read_protobuf_data, readVarintBuffer, decodeVarint, decodeVarintCore,
    h2, h127, hmask, readNBytes]

/-- C3 amended: when the stream ends after a complete varint but before the
declared payload length is reached, `read_protobuf_data` returns the
truncated payload bytes as a value; only when the stream ends before a
complete varint (every available byte has its continuation bit set, possibly
no byte at all) does the call fail, with an uncaught Python exception from
`_DecodeVarint` (an `IndexError` or the too-many-bytes `_DecodeError`), not
with a distinguished `FramingError`. -/
theorem truncated_frame_behavior (n : Nat) (p s : List Nat)
    (hn : n < 2 ^ 64) (hp : p.length < n)
    (hs : ∀ b ∈ s, b &&& 128 ≠ 0) :
    read_protobuf_data (varintBytes n ++ p) = .ok (p, []) ∧
      ∃ e, read_protobuf_data s = .error e := by
  constructor
  · rw [read_protobuf_data]
    simp only [readVarintBuffer_varintBytes n p]
    rw [decodeVarint_varintBytes hn]
    simp [readNBytes_short p n hp]
  · rcases decodeVarint_all_cont s hs with ⟨e, he⟩
    refine ⟨e, ?_⟩
    rw [read_protobuf_data]
    simp only [readVarintBuffer_all_cont s hs]
    simp [he]

/-- Witness for the amended C3: length prefix 2 with a single payload byte is
returned truncated, and the lone continuation byte `0x81` makes the decoder
raise. -/
theorem truncated_frame_behavior_witness :
    (2 : Nat) < 2 ^ 64 ∧ ([65] : List Nat).length < 2 ∧
      (∀ b ∈ ([129] : List Nat), b &&& 128 ≠ 0) ∧
      (read_protobuf_data (varintBytes 2 ++ [65]) = .ok ([65], []) ∧
        ∃ e, read_protobuf_data [129] = .error e) :=
  ⟨by norm_num, by decide, by decide,
    truncated_frame_behavior 2 [65] [129] (by norm_num) (by decide)
      (by decide)⟩

/-! ### Connection state machine and response dispatch -/

/-- `UPDATE_STATE_REQUEST_ID` of the control-interface example. -/
def UPDATE_STATE_REQUEST_ID : String := "dynamic_nginx@12345"

/-- `COMPLETE_STATE_REQUEST_ID` of the control-interface example. -/
def COMPLETE_STATE_REQUEST_ID : String := "dynamic_nginx@67890"

/-- Inbound `FromAnkaios` envelopes as discriminated by `handle_response` via
`HasField`: the accepted/closed lifecycle messages, a `response` carrying its
`requestId`, and `other` for any envelope with a different field set. -/
inductive FromAnkaios where
  | controlInterfaceAccepted
  | connectionClosed
  | response (requestId : String)
  | other
deriving DecidableEq, Repr

/-- The module-level connection flags `CONNECTED` and `CONNECTION_CLOSED`. -/
structure ConnState where
  connected : Bool
  connectionClosed : Bool
deriving DecidableEq, Repr

/-- The branch of `handle_response` taken for a message, mirroring the log
statement each branch emits. -/
inductive Action where
  | acceptedConnection
  | closedBeforeConnected
  | skippedBeforeConnected
  | handledUpdateState
  | handledCompleteState
  | skippedUnmatchedId
  | closedWhileConnected
  | skippedUnknown
deriving DecidableEq, Repr

/-- `handle_response` of `examples/python_control_interface/src/main.py`:
before the connection is established only `controlInterfaceAccepted` and
`connectionClosed` mutate the flags, anything else is logged and skipped;
once connected, a `response` is routed by comparing its `requestId` against
the two request-id constants, `connectionClosed` closes the session, and
anything else is logged and skipped. -/
def handle_response (s : ConnState) (m : FromAnkaios) : ConnState × Action :=
  match s.connected, m with
  | false, .controlInterfaceAccepted =>
    ({ s with connected := true }, .acceptedConnection)
  | false, .connectionClosed =>
    ({ s with connectionClosed := true }, .closedBeforeConnected)
  | false, .response _ => (s, .skippedBeforeConnected)
  | false, .other => (s, .skippedBeforeConnected)
  | true, .response rid =>
    if rid = UPDATE_STATE_REQUEST_ID then (s, .handledUpdateState)
    else if rid = COMPLETE_STATE_REQUEST_ID then (s, .handledCompleteState)
    else (s, .skippedUnmatchedId)
  | true, .connectionClosed =>
    ({ connected := false, connectionClosed := true }, .closedWhileConnected)
  | true, .controlInterfaceAccepted => (s, .skippedUnknown)
  | true, .other => (s, .skippedUnknown)

/-- The handler branch a connected session selects for a response, as a
function of the response's `requestId` alone. -/
def route_response (rid : String) : Action :=
  if rid = UPDATE_STATE_REQUEST_ID then .handledUpdateState
  else if rid = COMPLETE_STATE_REQUEST_ID then .handledCompleteState
  else .skippedUnmatchedId

/-- Dispatch a sequence of inbound envelopes through `handle_response`,
threading the connection flags and recording the branch taken for each. -/
def dispatch_list (s : ConnState) : List FromAnkaios → ConnState × List Action
  | [] => (s, [])
  | m :: rest =>
    let r := handle_response s m
    let rs := dispatch_list r.1 rest
    (rs.1, r.2 :: rs.2)

/-- Whether an envelope is a `response`. -/
def FromAnkaios.isResponse : FromAnkaios → Bool
  | .response _ => true
  | _ => false

/-- The `requestId` carried by a `response` envelope (and `""` otherwise,
never consulted for the other variants). -/
def FromAnkaios.requestId : FromAnkaios → String
  | .response rid => rid
  | _ => ""

/-- C4: a `Response` dispatched while the connection is not yet established
is discarded after logging — the flags are unchanged and no request branch
runs — and before `Connected` only `controlInterfaceAccepted` and
`connectionClosed` can change the state. -/
theorem response_before_connected_discarded (s : ConnState) (rid : String)
    (m : FromAnkaios) (h : s.connected = false) :
    handle_response s (.response rid) = (s, .skippedBeforeConnected) ∧
      ((handle_response s m).1 ≠ s →
        m = .controlInterfaceAccepted ∨ m = .connectionClosed) := by
  constructor
  · simp [handle_response, h]
  · intro hne
    cases m with
    | controlInterfaceAccepted => exact Or.inl rfl
    | connectionClosed => exact Or.inr rfl
    | response rid2 =>
      exfalso; apply hne; simp [handle_response, h]
    | other =>
      exfalso; apply hne; simp [handle_response, h]

/-- Witness for C4 in the initial state. -/
theorem response_before_connected_discarded_witness :
    (ConnState.mk false false).connected = false ∧
      (handle_response ⟨false, false⟩ (.response "dynamic_nginx@12345") =
          (⟨false, false⟩, .skippedBeforeConnected) ∧
        ((handle_response ⟨false, false⟩ .other).1 ≠ ⟨false, false⟩ →
          FromAnkaios.other = .controlInterfaceAccepted ∨
            FromAnkaios.other = .connectionClosed)) :=
  ⟨rfl, response_before_connected_discarded ⟨false, false⟩
    "dynamic_nginx@12345" .other rfl⟩

/-- C5: while connected, every response in a dispatched sequence is handled
by exactly the branch selected by its own `requestId`; the final state and
the branch taken for each response do not depend on the arrival order of the
other responses. -/
theorem responses_routed_by_id (s : ConnState) (ms : List FromAnkaios)
    (hc : s.connected = true) (hm : ∀ m ∈ ms, m.isResponse = true) :
    dispatch_list s ms = (s, ms.map fun m => route_response m.requestId) := by
  induction ms with
  | nil => simp [dispatch_list]
  | cons m rest ih =>
    have hm1 : m.isResponse = true := hm m (by simp)
    have hrest : ∀ x ∈ rest, x.isResponse = true :=
      fun x hx => hm x (by simp [hx])
    cases m with
    | response rid =>
      have hr : handle_response s (.response rid) = (s, route_response rid) := by
        simp only [handle_response, route_response, hc]
        by_cases h1 : rid = UPDATE_STATE_REQUEST_ID
        · simp [h1]
        · have hne : COMPLETE_STATE_REQUEST_ID ≠ UPDATE_STATE_REQUEST_ID := by
            decide
          by_cases h2 : rid = COMPLETE_STATE_REQUEST_ID <;> simp [h1, h2, hne]
      simp [dispatch_list, hr, ih hrest, FromAnkaios.requestId]
    | controlInterfaceAccepted => simp [FromAnkaios.isResponse] at hm1
    | connectionClosed => simp [FromAnkaios.isResponse] at hm1
    | other => simp [FromAnkaios.isResponse] at hm1

/-- Witness for C5: the two responses of the example arriving in the reverse
of the send order are each handled by the branch matching their own id. -/
theorem responses_routed_by_id_witness :
    (ConnState.mk true false).connected = true ∧
      (∀ m ∈ [FromAnkaios.response COMPLETE_STATE_REQUEST_ID,
          FromAnkaios.response UPDATE_STATE_REQUEST_ID],
        m.isResponse = true) ∧
      dispatch_list ⟨true, false⟩
          [FromAnkaios.response COMPLETE_STATE_REQUEST_ID,
            FromAnkaios.response UPDATE_STATE_REQUEST_ID] =
        (⟨true, false⟩, [.handledCompleteState, .handledUpdateState]) :=
  ⟨rfl, by decide, by
    rw [responses_routed_by_id ⟨true, false⟩ _ rfl (by decide)]
    simp [route_response, FromAnkaios.requestId, UPDATE_STATE_REQUEST_ID,
      COMPLETE_STATE_REQUEST_ID]⟩

/-- C6: a response received while connected whose `requestId` matches neither
registered request id is logged and dropped: the handler returns normally,
both connection flags are unchanged, and the handling of every other message
is unaffected. -/
theorem unmatched_response_id_dropped (s : ConnState) (rid : String)
    (m : FromAnkaios) (hc : s.connected = true)
    (h1 : rid ≠ UPDATE_STATE_REQUEST_ID)
    (h2 : rid ≠ COMPLETE_STATE_REQUEST_ID) :
    handle_response s (.response rid) = (s, .skippedUnmatchedId) ∧
      handle_response (handle_response s (.response rid)).1 m =
        handle_response s m := by
  have hr : handle_response s (.response rid) = (s, .skippedUnmatchedId) := by
    simp [handle_response, hc, h1, h2]
  exact ⟨hr, by rw [hr]⟩

/-- Witness for C6 with an unregistered request id. -/
theorem unmatched_response_id_dropped_witness :
    (ConnState.mk true false).connected = true ∧
      ("unknown@1" : String) ≠ UPDATE_STATE_REQUEST_ID ∧
      ("unknown@1" : String) ≠ COMPLETE_STATE_REQUEST_ID ∧
      (handle_response ⟨true, false⟩ (.response "unknown@1") =
          (⟨true, false⟩, .skippedUnmatchedId) ∧
        handle_response
            (handle_response ⟨true, false⟩ (.response "unknown@1")).1
            .connectionClosed =
          handle_response ⟨true, false⟩ .connectionClosed) :=
  ⟨rfl, by decide, by decide,
    unmatched_response_id_dropped ⟨true, false⟩ "unknown@1"
      .connectionClosed rfl (by decide) (by decide)⟩

/-! ### Transport loop, main program, and send path -/

/-- Guard of the `while not CONNECTION_CLOSED` loop in
`read_from_control_interface`: the reader keeps dispatching frames exactly
while the closed flag is unset. -/
def reader_loop_continues (s : ConnState) : Bool := !s.connectionClosed

/-- One iteration of the `while CONNECTED` send loop of `__main__`: when the
connected flag is observed set, a complete-state request frame is written;
otherwise the loop body does not run and nothing is written. -/
def main_loop_step (s : ConnState) (out : List (List Nat))
    (completeStatePayload : List Nat) : List (List Nat) :=
  if s.connected then out ++ [write_to_control_interface completeStatePayload]
  else out

/-- The error a send attempt could fail with according to the specification.
No check of the connection flags exists anywhere on the send path of the
source, so no code constructs this error. -/
inductive SendError where
  | connectionClosedError
deriving DecidableEq, Repr

/-- A call to `write_to_control_interface` from an arbitrary connection
state: the source writes the frame unconditionally — it never inspects
`CONNECTED` or `CONNECTION_CLOSED` — so the attempt always appends the frame
and the explicit error channel is never used. -/
def attempt_send (_s : ConnState) (out : List (List Nat))
    (payload : List Nat) : Except SendError (List (List Nat)) :=
  .ok (out ++ [write_to_control_interface payload])

/-- C7 counterexample: with the session closed
(`CONNECTED = False`, `CONNECTION_CLOSED = True`), a send attempt for the
one-byte payload `[1]` succeeds and writes the frame `[1, 1]` instead of
failing with `ConnectionClosedError`. -/
theorem send_while_closed_not_rejected :
    attempt_send ⟨false, true⟩ [] [1] = .ok [[1, 1]] := by
  have h : varintBytes 1 = [1] := varintBytes_of_lt (by omega)
  simp [attempt_send, write_to_control_interface, h]

/-- C7 amended: once `CONNECTION_CLOSED` is set the state is terminal — no
dispatch ever clears it, the reader loop guard is false, and the `__main__`
send loop (guarded by `CONNECTED`, which a close while connected clears)
writes nothing further; but an attempted send while closed is not rejected:
`write_to_control_interface` writes unconditionally and no
`ConnectionClosedError` exists in the code. -/
theorem closed_terminal_no_sends (s s2 : ConnState) (m : FromAnkaios)
    (out : List (List Nat)) (p : List Nat)
    (h : s.connectionClosed = true) (h2 : s2.connected = true) :
    ((handle_response s m).1).connectionClosed = true ∧
      reader_loop_continues s = false ∧
      (s.connected = false → main_loop_step s out p = out) ∧
      (handle_response s2 .connectionClosed).1 =
        { connected := false, connectionClosed := true } ∧
      main_loop_step { connected := false, connectionClosed := true } out p =
        out := by
  refine ⟨?_, ?_, ?_, ?_, ?_⟩
  · rcases s with ⟨c, cc⟩
    cases c <;> cases m <;>
      simp_all [handle_response, apply_ite (f := Prod.fst),
        apply_ite (f := ConnState.connectionClosed)]
  · simp [reader_loop_continues, h]
  · intro hc; simp [main_loop_step, hc]
  · simp [handle_response, h2]
  · simp [main_loop_step]

/-- Witness for the amended C7 at the closed state. -/
theorem closed_terminal_no_sends_witness :
    (ConnState.mk false true).connectionClosed = true ∧
      (ConnState.mk true false).connected = true ∧
      (((handle_response ⟨false, true⟩ .other).1).connectionClosed = true ∧
        reader_loop_continues ⟨false, true⟩ = false ∧
        ((ConnState.mk false true).connected = false →
          main_loop_step ⟨false, true⟩ [] [1] = []) ∧
        (handle_response ⟨true, false⟩ .connectionClosed).1 =
          { connected := false, connectionClosed := true } ∧
        main_loop_step { connected := false, connectionClosed := true }
          [] [1] = []) :=
  ⟨rfl, rfl,
    closed_terminal_no_sends ⟨false, true⟩ ⟨true, false⟩ .other [] [1]
      rfl rfl⟩

/-- The possible failures of `__main__`: the two `assert` statements are
`AssertionError`s carrying their message. -/
inductive MainError where
  | assertionFailed (msg : String)
deriving DecidableEq, Repr

/-- The send trace of `__main__` in
`examples/python_control_interface/src/main.py`, as a function of the three
serialized message payloads, whether the reader thread has set `CONNECTED`
when the post-`Hello` assert runs (the server delivered
`ControlInterfaceAccepted` within the wait period), and how many iterations
the `while CONNECTED` loop performs.  The Hello frame is always written
first; if the connection was not established the assert raises and nothing
else is ever written; otherwise the update-state request and the repeated
complete-state requests follow. -/
def main_sends (hello update complete : List Nat) (handshakeOk : Bool)
    (iters : Nat) : List (List Nat) × Except MainError Unit :=
  let helloFrame := write_to_control_interface hello
  if handshakeOk then
    (helloFrame :: write_to_control_interface update ::
        List.replicate iters (write_to_control_interface complete),
      .ok ())
  else
    ([helloFrame],
      .error (.assertionFailed "Connection to Ankaios not established."))

/-- C8: if the server does not deliver `ControlInterfaceAccepted` within the
handshake wait period, `__main__` surfaces the failed-to-connect assertion
error and the only frame ever written is the initial Hello — no Request
envelope is sent. -/
theorem handshake_failure_no_requests (hello update complete : List Nat)
    (iters : Nat) :
    (main_sends hello update complete false iters).2 =
        .error (.assertionFailed "Connection to Ankaios not established.") ∧
      (main_sends hello update complete false iters).1 =
        [write_to_control_interface hello] := by
  simp [main_sends]

/-- One iteration of the `while` loop of `read_from_control_interface`,
parameterized by the semantics of `FromAnkaios.ParseFromString`: the frame is
read with `read_protobuf_data` outside any handler — only the parse call is
inside the `try` — so a failure of the frame read propagates (terminating the
reader thread), while a parse failure is logged and the iteration continues
without dispatching a message. -/
def read_from_control_interface_step
    (parseFromString : List Nat → Except String FromAnkaios)
    (stream : List Nat) : Except ReadError (Option FromAnkaios × List Nat) :=
  match read_protobuf_data stream with
  | .error e => .error e
  | .ok (msgBuf, rest) =>
    match parseFromString msgBuf with
    | .error _ => .ok (none, rest)
    | .ok m => .ok (some m, rest)

/-- C9: on a stream at end-of-file before the first varint byte,
`read_protobuf_data` accumulates an empty varint buffer, `_DecodeVarint`
raises an index-out-of-range error on it, and the reader loop has no handler
around `read_protobuf_data`, so the error escapes the loop iteration. -/
theorem reader_eof_crash
    (parseFromString : List Nat → Except String FromAnkaios) :
    readVarintBuffer [] = ([], []) ∧
      decodeVarint [] = .error .indexError ∧
      read_protobuf_data [] = .error .indexError ∧
      read_from_control_interface_step parseFromString [] =
        .error .indexError := by
  refine ⟨rfl, rfl, rfl, ?_⟩
  simp [read_from_control_interface_step, read_protobuf_data,
    readVarintBuffer, decodeVarint, decodeVarintCore]

/-! ### Event mirror of `tools/tutorial_event/main.py` -/

/-- Strip an expected literal from the front of a character list, returning
the remainder on success. -/
def stripLiteral : List Char → List Char → Option (List Char)
  | [], rest => some rest
  | _ :: _, [] => none
  | p :: ps, c :: cs => if c = p then stripLiteral ps cs else none

/-- Match one `([^.]+)\.` group of the workload-field regular expression:
a nonempty maximal run of non-dot characters followed by a literal dot.
Matching is deterministic because `[^.]+` cannot consume the separating dot,
so greedy matching and backtracking coincide. -/
def nextGroup (cs : List Char) : Option (List Char × List Char) :=
  let g := cs.takeWhile fun c => c ≠ '.'
  let r := cs.dropWhile fun c => c ≠ '.'
  match g, r with
  | [], _ => none
  | _ :: _, '.' :: rest => some (g, rest)
  | _ :: _, [] => none
  | _ :: _, _ :: _ => none

/-- `workload_from_field` of `tools/tutorial_event/main.py`: apply
`re.match(r"workloadStates\.([^.]+)\.([^.]+)\.([^.]+)\.state", field)` — a
prefix-anchored match of the literal `workloadStates.`, three nonempty
dot-free groups each followed by a dot, and the literal `state` — returning
the `(agent, workload, id)` triple of the three groups, or `None` when the
field does not match. -/
def workload_from_field (field : String) : Option (String × String × String) :=
  match stripLiteral "workloadStates.".toList field.toList with
  | none => none
  | some r1 =>
    match nextGroup r1 with
    | none => none
    | some (g1, r2) =>
      match nextGroup r2 with
      | none => none
      | some (g2, r3) =>
        match nextGroup r3 with
        | none => none
        | some (g3, r4) =>
          match stripLiteral "state".toList r4 with
          | none => none
          | some _ => some (⟨g1⟩, ⟨g2⟩, ⟨g3⟩)

/-- The `workloads_db` dictionary: keys are `(agent, workload, id)` triples,
values are the printed execution state, modelled as an association list with
Python-dict lookup semantics. -/
abbrev WorkloadsDb := List ((String × String × String) × String)

/-- Python `key in db` for `workloads_db`. -/
def dbContains (db : WorkloadsDb) (k : String × String × String) : Bool :=
  db.any fun e => e.1 == k

/-- Python `db[k] = v`: overwrite an existing entry or append a new one. -/
def dbInsert (db : WorkloadsDb) (k : String × String × String) (v : String) :
    WorkloadsDb :=
  if dbContains db k then db.map fun e => if e.1 == k then (k, v) else e
  else db ++ [(k, v)]

/-- Removal of every entry stored under a key. -/
def dbErase (db : WorkloadsDb) (k : String × String × String) : WorkloadsDb :=
  db.filter fun e => !(e.1 == k)

/-- The `KeyError` raised by `del workloads_db[workload]` on a missing key. -/
inductive EventError where
  | keyError
deriving DecidableEq, Repr

/-- Python `del db[k]`: remove the entry, raising `KeyError` when absent. -/
def dbDelete (db : WorkloadsDb) (k : String × String × String) :
    Except EventError WorkloadsDb :=
  if dbContains db k then .ok (dbErase db k) else .error .keyError

/-- One event delivered to the tutorial's event loop: the three field lists
and the accompanying complete-state snapshot, the latter reduced to the
execution-state string it yields for a workload instance name. -/
structure EventEntry where
  added_fields : List String
  updated_fields : List String
  removed_fields : List String
  complete_state : (String × String × String) → String

/-- The added/updated half of the loop body: for every field in
`added_fields ++ updated_fields` that parses as a workload instance name,
write the snapshot's execution state into `workloads_db`. -/
def apply_added_updated (db : WorkloadsDb) (e : EventEntry) : WorkloadsDb :=
  (e.added_fields ++ e.updated_fields).foldl
    (fun acc f =>
      match workload_from_field f with
      | none => acc
      | some w => dbInsert acc w (e.complete_state w))
    db

/-- The removed half of the loop body: for every field in `removed_fields`
that parses as a workload instance name, `del workloads_db[workload]`;
a `KeyError` escapes immediately. -/
def apply_removed (db : WorkloadsDb) :
    List String → Except EventError WorkloadsDb
  | [] => .ok db
  | f :: rest =>
    match workload_from_field f with
    | none => apply_removed db rest
    | some w =>
      match dbDelete db w with
      | .error e => .error e
      | .ok db2 => apply_removed db2 rest

/-- One full iteration of the tutorial's event loop on a received event:
added and updated fields are applied first, then removed fields. -/
def process_event (db : WorkloadsDb) (e : EventEntry) :
    Except EventError WorkloadsDb :=
  apply_removed (apply_added_updated db e) e.removed_fields

/-- An event that only removes one field, with an irrelevant snapshot. -/
def mkRemoveEvent (f : String) : EventEntry :=
  { added_fields := [], updated_fields := [], removed_fields := [f],
    complete_state := fun _ => "" }

/-- Erasing a key removes exactly the entries stored under that key. -/
theorem dbContains_dbErase (db : WorkloadsDb) (w k : String × String × String) :
    dbContains (dbErase db w) k = (dbContains db k && !(k == w)) := by
  induction db with
  | nil => simp [dbContains, dbErase]
  | cons e t ih =>
    simp only [dbErase, List.filter_cons, dbContains, List.any_cons] at *
    by_cases h2 : k = w
    · by_cases h1 : e.1 = w <;> simp [h1, h2, ih, beq_iff_eq, dbErase,
        dbContains]
    · have hkw : (k == w) = false := by
        rw [beq_eq_false_iff_ne]; exact h2
      have hwk : (w == k) = false := by
        rw [beq_eq_false_iff_ne]; exact fun hh => h2 hh.symm
      by_cases h1 : e.1 = w <;>
        simp [h1, ih, beq_iff_eq, hkw, hwk, dbErase, dbContains]

/-- C2 counterexample: with `workloads_db` holding the entry for the instance
`workloadStates.agentA.nginx.1.state`, an event whose `removedFields` is the
prefix path `workloadStates.agentA` deletes nothing — the event loop's regex
matches only full `workloadStates.<agent>.<workload>.<id>.state` paths, so
the descendant entry survives, contradicting prefix-based removal. -/
theorem removed_prefix_leaves_descendants :
    process_event [(("agentA", "nginx", "1"), "Running")]
        (mkRemoveEvent "workloadStates.agentA") =
      .ok [(("agentA", "nginx", "1"), "Running")] ∧
      dbContains [(("agentA", "nginx", "1"), "Running")]
        ("agentA", "nginx", "1") = true :=
  ⟨rfl, rfl⟩

/-- C2 amended: a field in `removedFields` deletes an entry only when it
matches the full `workloadStates.<agent>.<workload>.<id>.state` pattern, in
which case exactly the entries stored under that `(agent, workload, id)`
triple are removed; a field that does not match the pattern — in particular
any proper prefix such as `workloadStates.agentA`, and the paths `a` and
`a.b` of the original example — neither deletes nor adds anything, so
applying `Event{addedFields:[a.b]}` and then `Event{removedFields:[a]}`
leaves the database unchanged. -/
theorem removal_requires_full_pattern (db : WorkloadsDb) (f f2 : String)
    (w k : String × String × String)
    (cs : (String × String × String) → String)
    (h1 : workload_from_field f = some w) (hc : dbContains db w = true)
    (h2 : workload_from_field f2 = none) :
    process_event db (mkRemoveEvent f) = .ok (dbErase db w) ∧
      dbContains (dbErase db w) k = (dbContains db k && !(k == w)) ∧
      process_event db (mkRemoveEvent f2) = .ok db ∧
      process_event db
          { added_fields := [f2], updated_fields := [],
            removed_fields := [], complete_state := cs } =
        .ok db := by
  refine ⟨?_, dbContains_dbErase db w k, ?_, ?_⟩
  · simp [process_event, mkRemoveEvent, apply_added_updated, apply_removed,
      h1, dbDelete, hc]
  · simp [process_event, mkRemoveEvent, apply_added_updated, apply_removed, h2]
  · simp [process_event, apply_added_updated, apply_removed, h2]

/-- Witness for the amended C2: a full-pattern field deletes its entry, the
prefix field `a` (and the added field `a.b`) leave the database unchanged. -/
theorem removal_requires_full_pattern_witness :
    workload_from_field "workloadStates.agentA.nginx.1.state" =
        some ("agentA", "nginx", "1") ∧
      dbContains [(("agentA", "nginx", "1"), "Running")]
        ("agentA", "nginx", "1") = true ∧
      workload_from_field "a" = none ∧
      (process_event [(("agentA", "nginx", "1"), "Running")]
            (mkRemoveEvent "workloadStates.agentA.nginx.1.state") =
          .ok (dbErase [(("agentA", "nginx", "1"), "Running")]
            ("agentA", "nginx", "1")) ∧
        dbContains
            (dbErase [(("agentA", "nginx", "1"), "Running")]
              ("agentA", "nginx", "1"))
            ("agentA", "nginx", "1") =
          (dbContains [(("agentA", "nginx", "1"), "Running")]
              ("agentA", "nginx", "1") &&
            !(("agentA", "nginx", "1") ==
              (("agentA", "nginx", "1") : String × String × String))) ∧
        process_event [(("agentA", "nginx", "1"), "Running")]
            (mkRemoveEvent "a") =
          .ok [(("agentA", "nginx", "1"), "Running")] ∧
        process_event [(("agentA", "nginx", "1"), "Running")]
            { added_fields := ["a.b"], updated_fields := [],
              removed_fields := [],
              complete_state := fun _ => "" } =
          .ok [(("agentA", "nginx", "1"), "Running")]) :=
  ⟨rfl, rfl, rfl,
    removal_requires_full_pattern
      [(("agentA", "nginx", "1"), "Running")]
      "workloadStates.agentA.nginx.1.state" "a"
      ("agentA", "nginx", "1") ("agentA", "nginx", "1")
      (fun _ => "") rfl rfl rfl⟩

/-- C10: an event whose `removedFields` contains a path matching the
`workloadStates.<agent>.<workload>.<id>.state` pattern whose triple is not a
key of `workloads_db` makes `del workloads_db[workload]` raise `KeyError`,
which escapes the event loop instead of being treated as a no-op. -/
theorem removed_missing_key_raises (db : WorkloadsDb) (f : String)
    (w : String × String × String)
    (cs : (String × String × String) → String)
    (h1 : workload_from_field f = some w) (h2 : dbContains db w = false) :
    process_event db
        { added_fields := [], updated_fields := [], removed_fields := [f],
          complete_state := cs } =
      .error .keyError := by
  simp [process_event, apply_added_updated, apply_removed, h1, dbDelete, h2]

/-- A complete-state snapshot yielding no information, for witnesses. -/
def emptyCompleteState : (String × String × String) → String := fun _ => ""

/-- Witness for C10: removing `workloadStates.a.b.c.state` from an empty
database raises `KeyError`. -/
theorem removed_missing_key_raises_witness :
    workload_from_field "workloadStates.a.b.c.state" = some ("a", "b", "c") ∧
      dbContains [] ("a", "b", "c") = false ∧
      process_event []
          { added_fields := [], updated_fields := [],
            removed_fields := ["workloadStates.a.b.c.state"],
            complete_state := emptyCompleteState } =
        .error .keyError :=
  ⟨rfl, rfl,
    removed_missing_key_raises [] "workloadStates.a.b.c.state" ("a", "b", "c")
      emptyCompleteState rfl rfl⟩

end Ankaios
